import Mathlib

/-!
# Adafruit_MFRC630 (Linux port): driver interface and demo program

Shallow embedding of `src/main.cpp` (`print_buf_hex`, `radio_mifare_dump_sector`,
`main`) and of the parts of `src/Adafruit_MFRC630.h` it relies on (parameter
widths, default keys).  The member functions of `Adafruit_MFRC630` are only
declared in the header; the demo program is embedded against a `Reader` that
supplies what each call returns.
-/

namespace MFRC630

/-! ## Machine integers and fixed-size byte arrays -/

/-- Conversion to `uint8_t`. -/
def u8 (n : Nat) : Nat := n % 256

/-- Conversion to `uint16_t`. -/
def u16 (n : Nat) : Nat := n % 65536

/-- A `uint8_t[n]` array: its bytes, and the fact that there are `n` of them. -/
structure ByteArr (n : Nat) where
  bytes : List Nat
  size_eq : bytes.length = n
deriving DecidableEq

/-- Array initialised with `= { 0 }`. -/
def ByteArr.zero (n : Nat) : ByteArr n := ⟨List.replicate n 0, List.length_replicate n 0⟩

/-- The load `buf[i]`; `none` is a load from outside the array. -/
def ByteArr.read {n : Nat} (a : ByteArr n) (i : Nat) : Option Nat := a.bytes[i]?

/-! ## The driver as the demo program sees it -/

/-- Enumerators of `mfrc630radiocfg` (declared in `Adafruit_MFRC630_consts.h`);
`main.cpp` names only `MFRC630_RADIOCFG_ISO1443A_106`. -/
inductive mfrc630radiocfg where
  | MFRC630_RADIOCFG_ISO1443A_106
  | other (id : Nat)
deriving DecidableEq, Repr

/-- What the calls made by `main.cpp` return.
* `iso14443aRequest`: the `uint16_t` ATQA;
* `iso14443aSelect`: the `uint8_t` return value and the contents of `uid[10]` after the call;
* `mifareReadBlock blocknum`: the `uint16_t` return value and the contents of
  `readbuf[16]` after the call, for the 8-bit block number received (the four block
  numbers of one `radio_mifare_dump_sector` call are distinct, so a function of the
  block number covers any four answers). -/
structure Reader where
  iso14443aRequest : Nat
  iso14443aSelect : Nat × ByteArr 10
  mifareReadBlock : Nat → Nat × ByteArr 16

/-- Observable events of a run: driver calls and what `main.cpp` writes to stdout
(`hexUpper` is `%02X`, `hexLower` is `std::hex` with `setw(2)` and `setfill('0')`; the
byte is `none` when it is loaded from outside its array). -/
inductive Ev where
  | construct (i2c_addr : Nat) (pdown_pin : Int)
  | softReset
  | configRadio (cfg : mfrc630radiocfg)
  | iso14443aRequest
  | iso14443aSelect
  | mifareReadBlock (blocknum : Nat)
  | text (s : String)
  | int (n : Nat)
  | hexUpper (byte : Option Nat)
  | hexLower (byte : Option Nat)
  | newline
  | endl
deriving DecidableEq, Repr

/-! ## `main.cpp` -/

/-- The function `print_buf_hex(buf, size)`: `printf("%02X ", buf[i])` for `i < size`,
then a newline. -/
def print_buf_hex {n : Nat} (buf : ByteArr n) (size : Nat) : List Ev :=
  (List.range size).map (fun i => Ev.hexUpper (buf.read i)) ++ [Ev.newline]

/-- The macro `MOJIC_TRICK` is defined nowhere in the sources, so `#if MOJIC_TRICK`
reads it as 0. -/
def MOJIC_TRICK : Bool := false

/-- The `for (uint8_t b = 0; b < 4; b++)` loop of `radio_mifare_dump_sector`, run
over the remaining values of `b`.  `sector_num * 4 + b` is computed in `int`; it is
converted to `uint8_t` when passed as `blocknum`, and printed unconverted.  The
`uint16_t` result of `mifareReadBlock` is stored in `uint8_t len`. -/
def dump_blocks (reader : Reader) (sector_num : Nat) : List Nat → ByteArr 16 → List Ev
  | [], _ => []
  | b :: rest, _ =>
    let blocknum := u8 (sector_num * 4 + b)
    let res := reader.mifareReadBlock blocknum
    let readbuf := res.2
    let len := u8 (u16 res.1)
    if len = 0 then
      [Ev.mifareReadBlock blocknum,
        Ev.text "What!?! No data returned for block ", Ev.int (sector_num * 4 + b),
        Ev.text "!", Ev.endl]
        ++ (if MOJIC_TRICK then [Ev.text "(ノ ゜Д゜)ノ ︵ ┻━┻", Ev.endl] else [])
    else
      [Ev.mifareReadBlock blocknum, Ev.int (sector_num * 4 + b), Ev.text ": "]
        ++ print_buf_hex readbuf len
        ++ dump_blocks reader sector_num rest readbuf

/-- The function `radio_mifare_dump_sector(reader, sector_num)`, with `sector_num` a
`uint8_t` and `uint8_t readbuf[16] = { 0 }`. -/
def radio_mifare_dump_sector (reader : Reader) (sector_num : Nat) : List Ev :=
  dump_blocks reader sector_num [0, 1, 2, 3] (ByteArr.zero 16)

/-- Block numbers passed to `mifareReadBlock`, in call order. -/
def blocks_read : List Ev → List Nat
  | [] => []
  | Ev.mifareReadBlock k :: t => k :: blocks_read t
  | _ :: t => blocks_read t

/-- Block numbers printed (the only integers `radio_mifare_dump_sector` prints), in order. -/
def blocks_printed : List Ev → List Nat
  | [] => []
  | Ev.int k :: t => k :: blocks_printed t
  | _ :: t => blocks_printed t

/-- The value held by `uint8_t len` after reading block `k`. -/
def len_of (reader : Reader) (k : Nat) : Nat := u8 (u16 (reader.mifareReadBlock k).1)

/-- Outcome of a run of `main`: the events in order, and the value of `rc` when
`return rc` is reached (`none` while `rc` has never been assigned). -/
structure MainResult where
  trace : List Ev
  rc : Option Bool

/-- The function `int main()` of `main.cpp`.  `bool rc;` is declared without
initialiser; its only assignment left uncommented is `rc = false` in the `else`
branch. -/
def main (reader : Reader) : MainResult :=
  let rc : Option Bool := none
  let start := [Ev.construct 0x28 (-1), Ev.softReset,
    Ev.configRadio mfrc630radiocfg.MFRC630_RADIOCFG_ISO1443A_106, Ev.iso14443aRequest]
  let atqa := u16 reader.iso14443aRequest
  if atqa ≠ 0 then
    let uid := reader.iso14443aSelect.2
    let uidlen := u8 reader.iso14443aSelect.1
    { trace := start ++ [Ev.iso14443aSelect] ++ [Ev.text "Found a tag with UUID "]
        ++ (List.range uidlen).flatMap (fun i => [Ev.hexLower (uid.read i), Ev.text " "])
        ++ [Ev.endl, Ev.text "", Ev.endl]
      rc := rc }
  else
    { trace := start, rc := some false }

/-- Exit status of the process: `rc` converted from `bool` to `int`; `none` when the
value returned was never assigned. -/
def exit_status (r : MainResult) : Option Nat := r.rc.map (fun b => if b then 1 else 0)

/-- Driver calls (constructor and member functions) among the events. -/
def Ev.isCall : Ev → Bool
  | Ev.construct _ _ => true
  | Ev.softReset => true
  | Ev.configRadio _ => true
  | Ev.iso14443aRequest => true
  | Ev.iso14443aSelect => true
  | Ev.mifareReadBlock _ => true
  | _ => false

/-- Calls of `configRadio`, whatever the profile. -/
def Ev.isConfigRadio : Ev → Bool
  | Ev.configRadio _ => true
  | _ => false

/-! ## `Adafruit_MFRC630.h`: parameter widths and default keys -/

/-- Width of `blocknum` in `uint16_t mifareReadBlock(uint8_t blocknum, uint8_t *buf)`. -/
def mifareReadBlock_blocknum_bits : Nat := 8

/-- Width of `blocknum` in `uint16_t mifareWriteBlock(uint16_t blocknum, uint8_t *buf)`. -/
def mifareWriteBlock_blocknum_bits : Nat := 16

/-- A parameter of an unsigned type of the given width takes `n` unchanged. -/
def accepts (bits n : Nat) : Prop := n < 2 ^ bits

instance (bits n : Nat) : Decidable (accepts bits n) := by unfold accepts; infer_instance

/-- The default key for fresh Mifare cards,
`uint8_t mifareKeyGlobal[6] = {0xFF, 0xFF, 0xFF, 0xFF, 0xFF, 0xFF};`. -/
def mifareKeyGlobal : List Nat := [0xFF, 0xFF, 0xFF, 0xFF, 0xFF, 0xFF]

/-- The default key for NDEF formatted cards,
`uint8_t mifareKeyNDEF[6] = {0xD3, 0xF7, 0xD3, 0xF7, 0xD3, 0xF7};`. -/
def mifareKeyNDEF : List Nat := [0xD3, 0xF7, 0xD3, 0xF7, 0xD3, 0xF7]

/-! ## Driver functions whose bodies are not among the sources

`Adafruit_MFRC630.h` declares `readFIFOLen`, `readFIFO`, `iso14443aRequest` and
`iso14443aSelect`; their bodies are in no source file.  They are modelled here from
the specification. -/

/-- Modelled from the spec: the body of `readFIFOLen` is not among the sources.
"`fifoLength() -> count`: returns current FIFO occupancy".  The FIFO is the list of
the bytes it holds, oldest first. -/
def readFIFOLen (fifo : List Nat) : Nat := fifo.length

/-- Modelled from the spec: the body of `readFIFO` is not among the sources.
"`readFIFO(maxLen, out) -> actualLen`: drains up to `maxLen` bytes, returns the number
actually available (≤ reported occupancy at call time); never blocks waiting for more
data to arrive — absence of data is reported as `actualLen = 0`, not an error", and
"returns exactly the occupancy's worth of bytes, never garbage past the valid region".
The result is the count returned, the caller's buffer after the call (the drained
bytes at its start, the rest untouched) and the FIFO left behind.  There is no
failure outcome: the spec gives `readFIFO` none. -/
def readFIFO (fifo : List Nat) (len : Nat) (buffer : List Nat) : Nat × List Nat × List Nat :=
  let actualLen := min len (readFIFOLen fifo)
  (actualLen, fifo.take actualLen ++ buffer.drop actualLen, fifo.drop actualLen)

/-- The cascade tag, 0x88. -/
def CASCADE_TAG : Nat := 0x88

/-- Modelled from the spec: "the SAK's cascade bit", its "continuation indication".
The spec does not number the bit; it is bit 2 (mask 0x04) as in ISO/IEC 14443-3. -/
def sakContinues (sak : Nat) : Bool := sak / 4 % 2 == 1

/-- What the IC's select command returns at one cascade level: "a UID fragment
(4 bytes, or a cascade-tag byte 0x88 signaling the UID continues at level 2), and a
SAK byte". -/
structure SelectReply where
  fragment : List Nat
  sak : Nat
deriving DecidableEq, Repr

/-- A card: its ATQA, its UID and the SAK it gives once its UID is complete. -/
structure Tag where
  atqa : Nat
  uid : List Nat
  sak : Nat
deriving DecidableEq, Repr

/-- Modelled from the spec: the select exchange at cascade level `level` (1, 2, 3)
with what is in the field.  An empty field gives no reply (the exchange "exceeds its
timeout").  A tag replies at the level that completes its UID with its last four UID
bytes and its SAK; at an earlier level with the cascade tag, the next three UID
bytes, and a SAK whose cascade bit is set. -/
def selectExchange (field : Option Tag) (level : Nat) : Option SelectReply :=
  match field with
  | none => none
  | some tag =>
    let done := 3 * (level - 1)
    if tag.uid.length = done + 4 then
      some ⟨tag.uid.drop done, tag.sak⟩
    else if done + 4 < tag.uid.length then
      some ⟨CASCADE_TAG :: (tag.uid.drop done).take 3, 0x04⟩
    else none

/-- Modelled from the spec: the body of `iso14443aRequest` is not among the sources.
"on success read back 2 bytes as ATQA"; "`request()` on an empty field returns
ATQA = 0 and does not raise an error". -/
def iso14443aRequest (field : Option Tag) : Nat :=
  match field with
  | none => 0
  | some tag => u16 tag.atqa

/-- Modelled from the spec: the cascade loop of select, "an explicit loop bounded to
3 levels, consulting the SAK continuation bit as the authoritative stop condition".
`levels` counts the levels still allowed, `level` is the current one, `uid` the bytes
assembled so far.  A level whose SAK has the cascade bit set contributes its fragment
without the leading cascade tag and the loop goes to the next level; otherwise the
whole fragment completes the UID.  `none` is the failure outcome ("any level's
exchange reports a framing/CRC error or exceeds its timeout", or no level is left). -/
def selectLevels (exchange : Nat → Option SelectReply) :
    Nat → Nat → List Nat → Option (List Nat × Nat)
  | 0, _, _ => none
  | levels + 1, level, uid =>
    match exchange level with
    | none => none
    | some reply =>
      if sakContinues reply.sak then
        selectLevels exchange levels (level + 1) (uid ++ reply.fragment.drop 1)
      else
        some (uid ++ reply.fragment, reply.sak)

/-- Modelled from the spec: the body of `iso14443aSelect` is not among the sources
(`uint8_t iso14443aSelect(uint8_t *uid, uint8_t *sak)`).  "Returns the assembled UID
(length 4, 7, or 10), the final SAK, or fails".  The result is the value returned
(the UID length, 0 on failure), the caller's `uid` buffer and `sak` after the call. -/
def iso14443aSelect (field : Option Tag) (uid : List Nat) (sak : Nat) :
    Nat × List Nat × Nat :=
  match selectLevels (selectExchange field) 3 1 [] with
  | none => (0, uid, sak)
  | some (bytes, finalSak) => (bytes.length, bytes ++ uid.drop bytes.length, finalSak)

/-! ## A concrete reader used to instantiate the theorems -/

/-- A reader that answers ATQA 0x0004, selects a 4-byte UID, and reads 16 bytes from
every block except block 2, for which it returns 0. -/
def demoReader : Reader where
  iso14443aRequest := 4
  iso14443aSelect := (4, ⟨[0xDE, 0xAD, 0xBE, 0xEF, 0, 0, 0, 0, 0, 0], rfl⟩)
  mifareReadBlock := fun k =>
    if k = 2 then (0, ByteArr.zero 16) else (16, ⟨List.replicate 16 k, List.length_replicate 16 k⟩)

theorem blocks_read_append (l₁ l₂ : List Ev) :
    blocks_read (l₁ ++ l₂) = blocks_read l₁ ++ blocks_read l₂ := by
  induction l₁ with
  | nil => rfl
  | cons e t ih => cases e <;> simp [blocks_read, ih]

theorem blocks_printed_append (l₁ l₂ : List Ev) :
    blocks_printed (l₁ ++ l₂) = blocks_printed l₁ ++ blocks_printed l₂ := by
  induction l₁ with
  | nil => rfl
  | cons e t ih => cases e <;> simp [blocks_printed, ih]

theorem blocks_read_print_buf_hex {n : Nat} (buf : ByteArr n) (size : Nat) :
    blocks_read (print_buf_hex buf size) = [] := by
  unfold print_buf_hex
  rw [blocks_read_append]
  have : ∀ l : List Nat,
      blocks_read (l.map (fun i => Ev.hexUpper (buf.read i))) = [] := by
    intro l
    induction l with
    | nil => rfl
    | cons a t ih => simpa [blocks_read] using ih
  simp [this, blocks_read]

theorem blocks_printed_print_buf_hex {n : Nat} (buf : ByteArr n) (size : Nat) :
    blocks_printed (print_buf_hex buf size) = [] := by
  unfold print_buf_hex
  rw [blocks_printed_append]
  have : ∀ l : List Nat,
      blocks_printed (l.map (fun i => Ev.hexUpper (buf.read i))) = [] := by
    intro l
    induction l with
    | nil => rfl
    | cons a t ih => simpa [blocks_printed] using ih
  simp [this, blocks_printed]

/-- One round of the loop: what it logs, and whether the loop goes on. -/
theorem dump_blocks_cons (reader : Reader) (s b : Nat) (rest : List Nat) (buf : ByteArr 16) :
    dump_blocks reader s (b :: rest) buf =
      if len_of reader (u8 (s * 4 + b)) = 0 then
        [Ev.mifareReadBlock (u8 (s * 4 + b)),
          Ev.text "What!?! No data returned for block ", Ev.int (s * 4 + b),
          Ev.text "!", Ev.endl]
      else
        [Ev.mifareReadBlock (u8 (s * 4 + b)), Ev.int (s * 4 + b), Ev.text ": "]
          ++ print_buf_hex (reader.mifareReadBlock (u8 (s * 4 + b))).2
              (len_of reader (u8 (s * 4 + b)))
          ++ dump_blocks reader s rest (reader.mifareReadBlock (u8 (s * 4 + b))).2 := by
  simp [dump_blocks, len_of, MOJIC_TRICK]

theorem blocks_read_dump_blocks (reader : Reader) (s : Nat) (bs : List Nat) (buf : ByteArr 16) :
    blocks_read (dump_blocks reader s bs buf) =
      (bs.map (fun b => u8 (s * 4 + b))).take
        (((bs.map (fun b => u8 (s * 4 + b))).takeWhile
            (fun k => len_of reader k != 0)).length + 1) := by
  induction bs generalizing buf with
  | nil => simp [dump_blocks, blocks_read]
  | cons b rest ih =>
    rw [dump_blocks_cons]
    by_cases h : len_of reader (u8 (s * 4 + b)) = 0
    · simp [h, blocks_read, List.takeWhile]
    · have hb : (len_of reader (u8 (s * 4 + b)) != 0) = true := by simpa using h
      rw [if_neg h, blocks_read_append, blocks_read_append, blocks_read_print_buf_hex, ih]
      simp only [List.map_cons, List.takeWhile_cons, hb, if_true, List.length_cons,
        List.take_succ_cons, blocks_read, List.nil_append, List.cons_append, List.append_nil]

theorem blocks_printed_dump_blocks (reader : Reader) (s : Nat) (bs : List Nat)
    (buf : ByteArr 16) :
    blocks_printed (dump_blocks reader s bs buf) =
      (bs.map (fun b => s * 4 + b)).take
        (((bs.map (fun b => u8 (s * 4 + b))).takeWhile
            (fun k => len_of reader k != 0)).length + 1) := by
  induction bs generalizing buf with
  | nil => simp [dump_blocks, blocks_printed]
  | cons b rest ih =>
    rw [dump_blocks_cons]
    by_cases h : len_of reader (u8 (s * 4 + b)) = 0
    · simp [h, blocks_printed, List.takeWhile]
    · have hb : (len_of reader (u8 (s * 4 + b)) != 0) = true := by simpa using h
      rw [if_neg h, blocks_printed_append, blocks_printed_append, blocks_printed_print_buf_hex, ih]
      simp only [List.map_cons, List.takeWhile_cons, hb, if_true, List.length_cons,
        List.take_succ_cons, blocks_printed, List.nil_append, List.cons_append, List.append_nil]

/-! ## `radio_mifare_dump_sector` -/

/-- C9: for a sector number `s` in 0..255, the `b`-th call of `mifareReadBlock` made by
`radio_mifare_dump_sector reader s` receives block number `(4s + b) mod 256`, the
`b`-th block number printed is the unreduced `4s + b`, and the two are equal if and
only if `s ≤ 63`.  Between one and four blocks are read, as many as are printed,
and all four (`b` = 0..3) when every read leaves a non-zero `len`. -/
theorem dump_sector_blocknum_narrowed (reader : Reader) (s : Nat) (hs : s < 256) :
    (blocks_read (radio_mifare_dump_sector reader s)).length
        = (blocks_printed (radio_mifare_dump_sector reader s)).length
      ∧ 1 ≤ (blocks_read (radio_mifare_dump_sector reader s)).length
      ∧ (blocks_read (radio_mifare_dump_sector reader s)).length ≤ 4
      ∧ ((∀ k, len_of reader k ≠ 0) →
          (blocks_read (radio_mifare_dump_sector reader s)).length = 4)
      ∧ ∀ b, b < (blocks_read (radio_mifare_dump_sector reader s)).length →
          (blocks_read (radio_mifare_dump_sector reader s))[b]? = some ((4 * s + b) % 256)
          ∧ (blocks_printed (radio_mifare_dump_sector reader s))[b]? = some (4 * s + b)
          ∧ ((blocks_read (radio_mifare_dump_sector reader s))[b]?
                = (blocks_printed (radio_mifare_dump_sector reader s))[b]? ↔ s ≤ 63) := by
  rw [radio_mifare_dump_sector, blocks_read_dump_blocks, blocks_printed_dump_blocks]
  have hall : (∀ k, len_of reader k ≠ 0) →
      (([0, 1, 2, 3].map (fun b => u8 (s * 4 + b))).takeWhile
        (fun k => len_of reader k != 0)).length = 4 := by
    intro h
    have hself : ([0, 1, 2, 3].map (fun b => u8 (s * 4 + b))).takeWhile
        (fun k => len_of reader k != 0) = [0, 1, 2, 3].map (fun b => u8 (s * 4 + b)) := by
      rw [List.takeWhile_eq_self_iff]
      intro k _
      simpa using h k
    rw [hself]
    rfl
  have hle : (([0, 1, 2, 3].map (fun b => u8 (s * 4 + b))).takeWhile
      (fun k => len_of reader k != 0)).length ≤ 4 := by
    refine Nat.le_trans (List.takeWhile_sublist _).length_le ?_
    simp
  generalize (([0, 1, 2, 3].map (fun b => u8 (s * 4 + b))).takeWhile
      (fun k => len_of reader k != 0)).length = n at hle hall ⊢
  refine ⟨by simp, by simp, by simp, ?_, ?_⟩
  · intro h
    rw [hall h]
    rfl
  · intro b hb
    simp only [List.length_take, List.length_map, List.length_cons, List.length_nil] at hb
    have hb4 : b < 4 := by omega
    have hbn : b < n + 1 := by omega
    simp only [List.getElem?_take, hbn, if_true]
    interval_cases b <;> simp [u8] <;> omega

/-- C9 at a concrete input: sector 64 wraps to blocks 0 and 1 while 256 and 257 are
printed. -/
theorem dump_sector_blocknum_narrowed_witness :
    blocks_read (radio_mifare_dump_sector demoReader 64) = [0, 1, 2]
      ∧ blocks_printed (radio_mifare_dump_sector demoReader 64) = [256, 257, 258]
      ∧ ((blocks_read (radio_mifare_dump_sector demoReader 64))[1]? = some ((4 * 64 + 1) % 256)
          ∧ (blocks_printed (radio_mifare_dump_sector demoReader 64))[1]? = some (4 * 64 + 1)
          ∧ ((blocks_read (radio_mifare_dump_sector demoReader 64))[1]?
                = (blocks_printed (radio_mifare_dump_sector demoReader 64))[1]? ↔ 64 ≤ 63)) := by
  have hread : blocks_read (radio_mifare_dump_sector demoReader 64) = [0, 1, 2] := by
    rw [radio_mifare_dump_sector, blocks_read_dump_blocks]
    simp [demoReader, len_of, u8, u16]
  have hprint : blocks_printed (radio_mifare_dump_sector demoReader 64) = [256, 257, 258] := by
    rw [radio_mifare_dump_sector, blocks_printed_dump_blocks]
    simp [demoReader, len_of, u8, u16]
  exact ⟨hread, hprint,
    (dump_sector_blocknum_narrowed demoReader 64 (by decide)).2.2.2.2 1 (by rw [hread]; decide)⟩

/-! ## `main` -/

/-- C3: when `iso14443aRequest` returns ATQA 0, the run of `main` never calls
`iso14443aSelect`, writes nothing to stdout (no tag UID), assigns `false` to `rc`
and returns it, so the exit status is 0. -/
theorem main_no_tag (reader : Reader) (h : reader.iso14443aRequest = 0) :
    Ev.iso14443aSelect ∉ (main reader).trace
      ∧ (main reader).trace.filter (fun e => !e.isCall) = []
      ∧ (main reader).rc = some false
      ∧ exit_status (main reader) = some 0 := by
  simp [main, h, u16, exit_status, Ev.isCall]

/-- C3 at a concrete input: `demoReader` with an empty field. -/
theorem main_no_tag_witness :
    Ev.iso14443aSelect ∉ (main { demoReader with iso14443aRequest := 0 }).trace
      ∧ (main { demoReader with iso14443aRequest := 0 }).trace.filter (fun e => !e.isCall) = []
      ∧ (main { demoReader with iso14443aRequest := 0 }).rc = some false
      ∧ exit_status (main { demoReader with iso14443aRequest := 0 }) = some 0 :=
  main_no_tag { demoReader with iso14443aRequest := 0 } rfl

/-- C5: in every run of `main` the driver calls are, in order, the constructor,
`softReset`, `configRadio(MFRC630_RADIOCFG_ISO1443A_106)`, `iso14443aRequest`, and
then `iso14443aSelect` exactly when the ATQA returned is non-zero.  So `configRadio`
is called once, with that profile, after `softReset` and before the one
`iso14443aRequest`; `iso14443aSelect` is called at most once, only after the
request, and if and only if the ATQA is non-zero. -/
theorem main_call_sequence (reader : Reader) :
    (main reader).trace.filter Ev.isCall
        = [Ev.construct 0x28 (-1), Ev.softReset,
            Ev.configRadio mfrc630radiocfg.MFRC630_RADIOCFG_ISO1443A_106, Ev.iso14443aRequest]
          ++ (if u16 reader.iso14443aRequest ≠ 0 then [Ev.iso14443aSelect] else [])
      ∧ (main reader).trace.filter Ev.isConfigRadio
          = [Ev.configRadio mfrc630radiocfg.MFRC630_RADIOCFG_ISO1443A_106]
      ∧ (main reader).trace.indexOf Ev.softReset
          < (main reader).trace.indexOf
              (Ev.configRadio mfrc630radiocfg.MFRC630_RADIOCFG_ISO1443A_106)
      ∧ (main reader).trace.count Ev.iso14443aRequest = 1
      ∧ (main reader).trace.indexOf
            (Ev.configRadio mfrc630radiocfg.MFRC630_RADIOCFG_ISO1443A_106)
          < (main reader).trace.indexOf Ev.iso14443aRequest
      ∧ (main reader).trace.count Ev.iso14443aSelect ≤ 1
      ∧ ((main reader).trace.count Ev.iso14443aSelect = 1 ↔ u16 reader.iso14443aRequest ≠ 0)
      ∧ (Ev.iso14443aSelect ∈ (main reader).trace →
          (main reader).trace.indexOf Ev.iso14443aRequest
            < (main reader).trace.indexOf Ev.iso14443aSelect) := by
  have hcall : ∀ l : List Nat, ((l.flatMap (fun i =>
      [Ev.hexLower (reader.iso14443aSelect.2.read i), Ev.text " "])).filter Ev.isCall) = [] := by
    intro l
    induction l with
    | nil => rfl
    | cons a t ih => simpa [List.flatMap_cons, List.filter_cons, Ev.isCall] using ih
  have hcfg : ∀ l : List Nat, ((l.flatMap (fun i =>
      [Ev.hexLower (reader.iso14443aSelect.2.read i), Ev.text " "])).filter Ev.isConfigRadio)
        = [] := by
    intro l
    induction l with
    | nil => rfl
    | cons a t ih => simpa [List.flatMap_cons, List.filter_cons, Ev.isConfigRadio] using ih
  have hcount : ∀ (e : Ev) (l : List Nat), e.isCall = true → (l.flatMap (fun i =>
      [Ev.hexLower (reader.iso14443aSelect.2.read i), Ev.text " "])).count e = 0 := by
    intro e l he
    rw [List.count_eq_zero]
    intro hmem
    rw [List.mem_flatMap] at hmem
    obtain ⟨i, _, hi⟩ := hmem
    simp only [List.mem_cons, List.mem_singleton, List.not_mem_nil, or_false] at hi
    rcases hi with rfl | rfl <;> simp [Ev.isCall] at he
  by_cases h : u16 reader.iso14443aRequest = 0
  · simp [main, h, Ev.isCall, Ev.isConfigRadio, List.indexOf_cons, List.count_cons]
  · simp [main, h, Ev.isCall, Ev.isConfigRadio, List.indexOf_cons, List.count_cons,
      List.filter_append, hcall, hcfg, List.count_append, hcount]

/-- C10, evaluated where a tag answers: with a non-zero ATQA (`demoReader`) `main`
reaches `return rc` with `rc` never assigned, so the exit status is not determined;
with ATQA 0 it returns the assigned `false`. -/
theorem main_rc_unassigned_when_tag_found :
    (main demoReader).rc = none
      ∧ exit_status (main demoReader) = none
      ∧ (main { demoReader with iso14443aRequest := 0 }).rc = some false := by
  refine ⟨rfl, rfl, rfl⟩

/-! ## Header facts -/

/-- C4, evaluated at block number 256: `mifareWriteBlock` (`uint16_t blocknum`) takes
256 unchanged, `mifareReadBlock` (`uint8_t blocknum`) does not, and 256 is outside
0..255; the two declared widths differ. -/
theorem mifareWriteBlock_accepts_256 :
    accepts mifareWriteBlock_blocknum_bits 256
      ∧ ¬ accepts mifareReadBlock_blocknum_bits 256
      ∧ ¬ (256 ≤ 255)
      ∧ mifareReadBlock_blocknum_bits ≠ mifareWriteBlock_blocknum_bits := by
  decide

/-- C6: both default keys are 6 bytes long; every byte of `mifareKeyGlobal` is 0xFF;
byte `i` of `mifareKeyNDEF` is 0xD3 for even `i` and 0xF7 for odd `i`. -/
theorem default_keys :
    mifareKeyGlobal.length = 6 ∧ mifareKeyNDEF.length = 6
      ∧ (∀ i : Fin 6, mifareKeyGlobal[i.val]? = some 0xFF)
      ∧ (∀ i : Fin 6, mifareKeyNDEF[i.val]? = some (if i.val % 2 = 0 then 0xD3 else 0xF7))
      ∧ mifareKeyNDEF = [0xD3, 0xF7] ++ [0xD3, 0xF7] ++ [0xD3, 0xF7] := by
  decide

/-! ## FIFO and select, as modelled from the specification -/

/-- C2: when the FIFO holds `n` bytes and more than `n` are requested, `readFIFO`
returns exactly `n`, the buffer starts with exactly the `n` FIFO bytes and is untouched
after them, and the FIFO is left empty; on an empty FIFO it returns 0 and changes
nothing (there is no error outcome). -/
theorem readFIFO_returns_occupancy (fifo : List Nat) (maxLen : Nat) (buffer : List Nat)
    (h : readFIFOLen fifo < maxLen) :
    (readFIFO fifo maxLen buffer).1 = readFIFOLen fifo
      ∧ (readFIFO fifo maxLen buffer).2.1.take (readFIFOLen fifo) = fifo
      ∧ (readFIFO fifo maxLen buffer).2.1.drop (readFIFOLen fifo)
          = buffer.drop (readFIFOLen fifo)
      ∧ (readFIFO fifo maxLen buffer).2.2 = []
      ∧ (readFIFOLen fifo = 0 → readFIFO fifo maxLen buffer = (0, buffer, [])) := by
  unfold readFIFOLen at h
  have hmin : min maxLen fifo.length = fifo.length := Nat.min_eq_right (Nat.le_of_lt h)
  refine ⟨?_, ?_, ?_, ?_, ?_⟩
  · simp [readFIFO, readFIFOLen, hmin]
  · simp [readFIFO, readFIFOLen, hmin]
  · simp [readFIFO, readFIFOLen, hmin]
  · simp [readFIFO, readFIFOLen, hmin]
  · intro h0
    have hnil : fifo = [] := List.length_eq_zero.mp h0
    subst hnil
    simp [readFIFO, readFIFOLen]

/-- C2 at a concrete input: 3 bytes in the FIFO, 16 requested into a zeroed buffer. -/
theorem readFIFO_returns_occupancy_witness :
    readFIFO [0xAA, 0xBB, 0xCC] 16 (List.replicate 16 0)
        = (3, [0xAA, 0xBB, 0xCC] ++ List.replicate 13 0, [])
      ∧ (readFIFO [0xAA, 0xBB, 0xCC] 16 (List.replicate 16 0)).1 = readFIFOLen [0xAA, 0xBB, 0xCC] :=
  ⟨by decide,
    (readFIFO_returns_occupancy [0xAA, 0xBB, 0xCC] 16 (List.replicate 16 0) (by decide)).1⟩

theorem list_of_length_four (l : List Nat) (h : l.length = 4) :
    ∃ a b c d, l = [a, b, c, d] := by
  match l, h with
  | [a, b, c, d], _ => exact ⟨a, b, c, d, rfl⟩

theorem list_of_length_seven (l : List Nat) (h : l.length = 7) :
    ∃ a b c d e f g, l = [a, b, c, d, e, f, g] := by
  match l, h with
  | [a, b, c, d, e, f, g], _ => exact ⟨a, b, c, d, e, f, g, rfl⟩

theorem list_of_length_ten (l : List Nat) (h : l.length = 10) :
    ∃ a b c d e f g i j k, l = [a, b, c, d, e, f, g, i, j, k] := by
  match l, h with
  | [a, b, c, d, e, f, g, i, j, k], _ => exact ⟨a, b, c, d, e, f, g, i, j, k, rfl⟩

/-- C1: after a request that returned a non-zero ATQA (so a tag is in the field), for
a tag whose UID has a supported length `L` (4, 7 or 10) and whose final SAK has the
cascade bit clear, `iso14443aSelect` returns `L`, the caller's 10-byte buffer holds
exactly the `L` UID bytes at its start and is unchanged after them, the SAK handed
back is the tag's final SAK with the cascade bit clear (UID complete), and the
cascade tags carried by the level replies are not in the result: the bytes written
are the UID itself, so 0x88 occurs among them only where the UID has it. -/
theorem iso14443aSelect_returns_uid (field : Option Tag) (uid : List Nat) (sak : Nat)
    (hreq : iso14443aRequest field ≠ 0)
    (hL : ∀ tag, field = some tag →
      (tag.uid.length = 4 ∨ tag.uid.length = 7 ∨ tag.uid.length = 10)
        ∧ sakContinues tag.sak = false)
    (hbuf : uid.length = 10) :
    ∃ tag, field = some tag
      ∧ (iso14443aSelect field uid sak).1 = tag.uid.length
      ∧ (iso14443aSelect field uid sak).2.1.take tag.uid.length = tag.uid
      ∧ (iso14443aSelect field uid sak).2.1.drop tag.uid.length = uid.drop tag.uid.length
      ∧ (iso14443aSelect field uid sak).2.1.length = 10
      ∧ (iso14443aSelect field uid sak).2.2 = tag.sak
      ∧ sakContinues (iso14443aSelect field uid sak).2.2 = false
      ∧ (CASCADE_TAG ∉ tag.uid →
          CASCADE_TAG ∉ (iso14443aSelect field uid sak).2.1.take
            (iso14443aSelect field uid sak).1) := by
  cases field with
  | none => exact absurd rfl hreq
  | some tag =>
    obtain ⟨hlen, hsak⟩ := hL tag rfl
    refine ⟨tag, rfl, ?_⟩
    obtain ⟨atqa, tuid, tsak⟩ := tag
    simp only at hlen hsak
    have key : iso14443aSelect (some ⟨atqa, tuid, tsak⟩) uid sak
        = (tuid.length, tuid ++ uid.drop tuid.length, tsak) := by
      have h4 : sakContinues 4 = true := by decide
      rcases hlen with h | h | h
      · obtain ⟨a, b, c, d, rfl⟩ := list_of_length_four tuid h
        simp [iso14443aSelect, selectLevels, selectExchange, hsak]
      · obtain ⟨a, b, c, d, e, f, g, rfl⟩ := list_of_length_seven tuid h
        simp [iso14443aSelect, selectLevels, selectExchange, hsak, h4]
      · obtain ⟨a, b, c, d, e, f, g, i, j, k, rfl⟩ := list_of_length_ten tuid h
        simp [iso14443aSelect, selectLevels, selectExchange, hsak, h4]
    rw [key]
    refine ⟨rfl, ?_, ?_, ?_, rfl, hsak, ?_⟩
    · simp
    · simp
    · simp only [List.length_append, List.length_drop, hbuf]
      rcases hlen with h | h | h <;> rw [h]
    · intro hct
      simpa using hct

/-- C1 at concrete inputs, one tag for each supported UID length; the 7- and 10-byte
tags answer the earlier levels with the cascade tag 0x88, which is not in the result. -/
theorem iso14443aSelect_returns_uid_witness :
    iso14443aSelect (some ⟨0x0004, [0xDE, 0xAD, 0xBE, 0xEF], 0x08⟩) (List.replicate 10 0) 0
        = (4, [0xDE, 0xAD, 0xBE, 0xEF, 0, 0, 0, 0, 0, 0], 0x08)
      ∧ iso14443aSelect (some ⟨0x0044, [4, 1, 2, 3, 5, 6, 7], 0x00⟩) (List.replicate 10 0) 0
        = (7, [4, 1, 2, 3, 5, 6, 7, 0, 0, 0], 0x00)
      ∧ iso14443aSelect (some ⟨0x0084, [1, 2, 3, 4, 5, 6, 7, 8, 9, 10], 0x20⟩)
          (List.replicate 10 0) 0
        = (10, [1, 2, 3, 4, 5, 6, 7, 8, 9, 10], 0x20)
      ∧ ∃ tag, some (⟨0x0044, [4, 1, 2, 3, 5, 6, 7], 0x00⟩ : Tag) = some tag
          ∧ (iso14443aSelect (some ⟨0x0044, [4, 1, 2, 3, 5, 6, 7], 0x00⟩)
              (List.replicate 10 0) 0).1 = tag.uid.length := by
  refine ⟨by decide, by decide, by decide, ?_⟩
  obtain ⟨tag, h1, h2, _⟩ :=
    iso14443aSelect_returns_uid (some ⟨0x0044, [4, 1, 2, 3, 5, 6, 7], 0x00⟩)
      (List.replicate 10 0) 0 (by decide)
      (by
        intro tag h
        cases h
        exact ⟨Or.inr (Or.inl rfl), rfl⟩)
      rfl
  exact ⟨tag, h1, h2⟩

end MFRC630
